import Mathlib

/-!
Verification of the goreview dispatch engine: a shallow embedding of the
configuration (internal/config), the reviewer service (internal/reviewer)
and the concurrent scheduler (cmd/root.go), with theorems checking the
natural-language specification against the code.
-/

deriving instance DecidableEq for Except

namespace GoReview

/-! ## Configuration (internal/config/config.go, multi-endpoint revision) -/

structure Config where
  projectPath : String
  apiURL : String
  apiURLs : List String
  apiKey : String
  model : String
  maxFileSize : Nat
  requestTimeout : Nat
  maxConcurrency : Nat
  reportFile : String
deriving Repr

/-- Go unicode.IsSpace: the characters strings.TrimSpace strips. -/
def goIsSpace (c : Char) : Bool :=
  c.toNat == 0x9 || c.toNat == 0xA || c.toNat == 0xB || c.toNat == 0xC || c.toNat == 0xD ||
  c.toNat == 0x20 || c.toNat == 0x85 || c.toNat == 0xA0 ||
  c.toNat == 0x1680 || (decide (0x2000 ≤ c.toNat) && decide (c.toNat ≤ 0x200A)) ||
  c.toNat == 0x2028 || c.toNat == 0x2029 || c.toNat == 0x202F || c.toNat == 0x205F ||
  c.toNat == 0x3000

/-- Go strings.TrimSpace, on the rune sequence of a string. -/
def goTrimSpace (l : List Char) : List Char :=
  ((l.dropWhile goIsSpace).reverse.dropWhile goIsSpace).reverse

/-- Config.EffectiveAPIURLs: the explicit multi-endpoint list if non-empty,
else the legacy single APIURL when non-blank, else empty. -/
def EffectiveAPIURLs (c : Config) : List String :=
  if 0 < c.apiURLs.length then c.apiURLs
  else if goTrimSpace c.apiURL.data ≠ [] then [c.apiURL]
  else []

/-! ## Content validation (internal/reviewer, validateContent / isTextContent) -/

/-- The distinct error values validateContent can produce, one constructor
per fmt.Errorf site. The null-byte and low-printable-ratio rejections share
the single Go message "content appears to be binary or non-text". -/
inductive VError where
  | emptyContent
  | tooLarge (size : Nat)
  | binaryOrNonText
deriving DecidableEq, Repr

/-- The per-rune printability test of isTextContent:
r >= 32 && r <= 126 || r == tab || r == newline || r == carriage-return. -/
def isPrintableRune (c : Char) : Bool :=
  (decide (32 ≤ c.toNat) && decide (c.toNat ≤ 126)) ||
    c == '\t' || c == '\n' || c == '\r'

/-- isTextContent: no null byte, and the printable fraction is at least 0.95.
Go compares float64(printableCount)/float64(totalCount) < 0.95; for
totalCount ≤ 100000 (guaranteed by the preceding 100000-byte size check in
validateContent, and runes never outnumber bytes) the rounded division can
cross the 0.95 literal only at the exact value 19/20, so the comparison is
exactly the rational one: 20 * printableCount < 19 * totalCount. -/
def isTextContent (content : String) : Bool :=
  if content.data.contains (Char.ofNat 0) then false
  else
    let printableCount := content.data.countP isPrintableRune
    let totalCount := content.data.length
    if 0 < totalCount ∧ 20 * printableCount < 19 * totalCount then false
    else true

/-- validateContent: empty/whitespace-only, over-100000-bytes, and
binary-or-non-text checks, in source order, short-circuiting. -/
def validateContent (code : String) : Except VError Unit :=
  if goTrimSpace code.data = [] then .error .emptyContent
  else if 100000 < code.utf8ByteSize then .error (.tooLarge code.utf8ByteSize)
  else if isTextContent code = false then .error .binaryOrNonText
  else .ok ()

/-! ## Remote review client (internal/reviewer, attemptRequest) -/

structure Message where
  role : String
  content : String
deriving DecidableEq, Repr

structure Choice where
  message : Message
deriving DecidableEq, Repr

structure APIError where
  message : String
  type : String
  code : String
deriving DecidableEq, Repr

structure ReviewResponse where
  choices : List Choice
  error : Option APIError
deriving DecidableEq, Repr

/-- The distinct error values attemptRequest can produce, one constructor per
fmt.Errorf site in the source (the formatted-in data is carried as fields). -/
inductive AttemptError where
  | badRequest (model : String)
  | authFailed
  | forbidden
  | modelNotFound (model : String)
  | rateLimited
  | serverError
  | statusGeneric (status : Nat)
  | decodeFailed
  | apiError (msg : String)
  | noChoices
  | transportFailed (msg : String)
deriving DecidableEq, Repr

/-- One HTTP exchange as attemptRequest observes it: either the transport
fails (client.Do error), or a response arrives with a status code and, when
the body parses as a ReviewResponse, its decoded shape (none = decode error). -/
inductive HTTPResult where
  | transportError (msg : String)
  | response (status : Nat) (body : Option ReviewResponse)
deriving DecidableEq, Repr

/-- The status-code switch of attemptRequest for a non-200 response. -/
def classifyStatus (model : String) (status : Nat) : AttemptError :=
  if status = 400 then .badRequest model
  else if status = 401 then .authFailed
  else if status = 403 then .forbidden
  else if status = 404 then .modelNotFound model
  else if status = 429 then .rateLimited
  else if status = 500 then .serverError
  else .statusGeneric status

/-- attemptRequest: one request/response cycle against one endpoint, with the
outcome classified exactly as in the source. The HTTP exchange itself is
abstracted as an HTTPResult input. -/
def attemptRequest (model : String) (result : HTTPResult) : Except AttemptError String :=
  match result with
  | .transportError m => .error (.transportFailed m)
  | .response status body =>
    if status ≠ 200 then .error (classifyStatus model status)
    else
      match body with
      | none => .error .decodeFailed
      | some r =>
        match r.error with
        | some e => .error (.apiError e.message)
        | none =>
          match r.choices with
          | [] => .error .noChoices
          | c :: _ => .ok c.message.content

/-! ## Failover dispatcher (internal/reviewer, ReviewCode) -/

/-- The errors ReviewCode can return, one constructor per fmt.Errorf site.
endpointFailed is the per-endpoint wrapper (endpoint %s failed: %w);
allEndpointsFailed is the terminal wrapper (all %d endpoints failed;
last error: %w), wrapping whatever lastErr held. -/
inductive ReviewError where
  | sizeExceeded (max : Nat)
  | contentValidationFailed (inner : VError)
  | endpointFailed (ep : String) (inner : AttemptError)
  | allEndpointsFailed (n : Nat) (last : ReviewError)
  | noEndpointsConfigured
deriving DecidableEq, Repr

structure Service where
  config : Config
  endpoints : List String
  rrCounter : Nat
deriving Repr

/-- NewService: endpoints are the effective URLs, rrCounter starts at 0. -/
def NewService (cfg : Config) : Service :=
  { config := cfg, endpoints := EffectiveAPIURLs cfg, rrCounter := 0 }

/-- The uint64 modulus of the rrCounter. -/
def UINT64 : Nat := 18446744073709551616

/-- The start-index computation of ReviewCode:
atomic.AddUint64(rrCounter, 1) returns the incremented value, then
(value - 1) in uint64 arithmetic is reduced mod the pool size.
Returns (start index, new counter value). -/
def nextStartIndex (counter n : Nat) : Nat × Nat :=
  let c := (counter + 1) % UINT64
  ((c + (UINT64 - 1)) % UINT64 % n, c)

/-- eps[(start+i) % len(eps)], the endpoint tried at loop offset i. -/
def rotEp (eps : List String) (start i : Nat) : String :=
  eps.getD ((start + i) % eps.length) ""

/-- The failover loop of ReviewCode: i is the current loop offset, remaining
is how many iterations are left, lastErr mirrors the Go lastErr variable.
Also returns the list of endpoints attempted, in order, as the invocation
trace of attemptRequest. -/
def tryFrom (attempt : String → Except AttemptError String) (eps : List String)
    (start : Nat) : Nat → Nat → Option ReviewError → Except ReviewError String × List String
  | _, 0, lastErr =>
    match lastErr with
    | some e => (.error (.allEndpointsFailed eps.length e), [])
    | none => (.error .noEndpointsConfigured, [])
  | i, r + 1, _lastErr =>
    let ep := rotEp eps start i
    match attempt ep with
    | .ok review => (.ok review, [ep])
    | .error e =>
      let rest := tryFrom attempt eps start (i + 1) r (some (.endpointFailed ep e))
      (rest.1, ep :: rest.2)

/-- The endpoint-selection-and-failover phase of ReviewCode: fall back to the
single legacy APIURL when the endpoint list is empty, compute the round-robin
start index (updating the shared counter), and run the loop over all
endpoints. -/
def reviewDispatch (s : Service) (attempt : String → Except AttemptError String) :
    Except ReviewError String × Service × List String :=
  let eps := if s.endpoints.length = 0 then [s.config.apiURL] else s.endpoints
  let p := nextStartIndex s.rrCounter eps.length
  let res := tryFrom attempt eps p.1 0 eps.length none
  (res.1, { s with rrCounter := p.2 }, res.2)

/-- ReviewCode: size check, content validation, then endpoint failover.
The per-endpoint HTTP attempt is abstracted as the attempt argument
(attemptRequest applied to the endpoint for this unit); the request marshal
step is omitted since json.Marshal of this request shape cannot fail.
Returns (outcome, service with updated counter, endpoints attempted). -/
def ReviewCode (s : Service) (attempt : String → Except AttemptError String)
    (code : String) : Except ReviewError String × Service × List String :=
  if s.config.maxFileSize < code.utf8ByteSize then
    (.error (.sizeExceeded s.config.maxFileSize), s, [])
  else
    match validateContent code with
    | .error e => (.error (.contentValidationFailed e), s, [])
    | .ok _ => reviewDispatch s attempt

/-- The start index ReviewCode uses when the endpoint list is non-empty. -/
def startIndexOf (s : Service) : Nat :=
  (nextStartIndex s.rrCounter s.endpoints.length).1

/-- The per-endpoint failure reasons embedded in a ReviewError, extracted
from the wrapper chain. -/
def embeddedEndpointReasons : ReviewError → List (String × AttemptError)
  | .endpointFailed ep e => [(ep, e)]
  | .allEndpointsFailed _ last => embeddedEndpointReasons last
  | _ => []

/-- The per-endpoint failure reasons embedded in a ReviewCode outcome. -/
def outcomeEndpointReasons (o : Except ReviewError String) : List (String × AttemptError) :=
  match o with
  | .error e => embeddedEndpointReasons e
  | .ok _ => []

/-! ## Bounded work scheduler (cmd/root.go, processFilesWithConcurrency)

The admission gate is the buffered channel of capacity maxConcurrency: a
task sends one token before reviewing (blocking while the buffer is full)
and receives it back in a deferred call, so the token is returned on every
exit path of the goroutine body. The gate is modeled as a transition system
counting tasks before the gate (pending), holding a slot (inside) and
finished (done); the deferred release is the unconditional release step. -/

structure SchedState where
  pending : Nat
  inside : Nat
  done : Nat
deriving DecidableEq, Repr

/-- One scheduler event: a task acquires a gate slot (possible only while
fewer than limit slots are taken — the channel send blocks otherwise), or a
task holding a slot finishes (with any outcome) and its deferred receive
releases the slot. -/
inductive SchedStep (limit : Nat) : SchedState → SchedState → Prop
  | acquire (p i d : Nat) : i < limit →
      SchedStep limit ⟨p + 1, i, d⟩ ⟨p, i + 1, d⟩
  | release (p i d : Nat) :
      SchedStep limit ⟨p, i + 1, d⟩ ⟨p, i, d + 1⟩

/-- States reachable from the launch of n tasks, none yet past the gate. -/
def SchedReachable (limit n : Nat) (s : SchedState) : Prop :=
  Relation.ReflTransGen (SchedStep limit) ⟨n, 0, 0⟩ s

/-! ## Result aggregation and run classification (cmd/root.go) -/

structure FileInfo where
  path : String
  size : Nat
  content : String
deriving DecidableEq, Repr

/-- One labeled block written to the report sink for a successful review. -/
structure ReportBlock where
  path : String
  size : Nat
  review : String
deriving DecidableEq, Repr

/-- The observable outcome of processFilesWithConcurrency: units attempted
(the per-task Reviewing log), blocks written to the report sink, the error
list, and the function result (some n = review completed with n errors). -/
structure RunResult where
  attempted : List String
  blocks : List ReportBlock
  errors : List (String × ReviewError)
  finalError : Option Nat
deriving DecidableEq, Repr

/-- The per-unit tasks of processFilesWithConcurrency, sequentialized in
submission order (the claims checked below are order-insensitive: outcome
sets, counts and emptiness do not depend on the completion interleaving).
Each task reviews its file; on error it appends (path, error) to the shared
error list; on success it writes a report block unless the review text is
empty. The per-unit review outcome is abstracted as the review argument
(ReviewCode applied to the unit's content). -/
def processFiles (review : String → Except ReviewError String) :
    List FileInfo → List String × List ReportBlock × List (String × ReviewError)
  | [] => ([], [], [])
  | f :: rest =>
    let tail := processFiles review rest
    match review f.content with
    | .error e => (f.path :: tail.1, tail.2.1, (f.path, e) :: tail.2.2)
    | .ok r =>
      if r = "" then (f.path :: tail.1, tail.2.1, tail.2.2)
      else (f.path :: tail.1, ⟨f.path, f.size, r⟩ :: tail.2.1, tail.2.2)

/-- processFilesWithConcurrency: run every task, then return an error
carrying the error count when any task failed, nil otherwise. -/
def processFilesWithConcurrency (review : String → Except ReviewError String)
    (files : List FileInfo) : RunResult :=
  { attempted := (processFiles review files).1,
    blocks := (processFiles review files).2.1,
    errors := (processFiles review files).2.2,
    finalError :=
      if 0 < (processFiles review files).2.2.length
      then some (processFiles review files).2.2.length else none }

/-- The completion classification of runReview: zero files found is an
immediate nil return; otherwise the result of processFilesWithConcurrency. -/
def runReview (review : String → Except ReviewError String)
    (files : List FileInfo) : Option Nat :=
  if files.length = 0 then none
  else (processFilesWithConcurrency review files).finalError

/-- The report block a file contributes, if any. -/
def blockOf (review : String → Except ReviewError String) (f : FileInfo) :
    Option ReportBlock :=
  match review f.content with
  | .ok r => if r = "" then none else some ⟨f.path, f.size, r⟩
  | .error _ => none

/-- The error-list entry a file contributes, if any. -/
def errOf (review : String → Except ReviewError String) (f : FileInfo) :
    Option (String × ReviewError) :=
  match review f.content with
  | .error e => some (f.path, e)
  | .ok _ => none


/-! ## Round-robin iteration (sequential calls on one service) -/

/-- The rrCounter value after k sequential dispatcher calls on a fresh
service with an n-endpoint pool. -/
def rrCounterAfter (n : Nat) : Nat → Nat
  | 0 => 0
  | k + 1 => (nextStartIndex (rrCounterAfter n k) n).2

/-- The start index returned by the k-th sequential dispatcher call
(0-indexed) on a fresh service with an n-endpoint pool. -/
def nthStart (n k : Nat) : Nat :=
  (nextStartIndex (rrCounterAfter n k) n).1

/-! ## Concrete fixtures used by witnesses and counterexamples -/

def cfgEx : Config :=
  { projectPath := ".", apiURL := "http://legacy", apiURLs := [], apiKey := "",
    model := "m", maxFileSize := 1000000, requestTimeout := 30,
    maxConcurrency := 3, reportFile := "" }

def cfg0 : Config :=
  { projectPath := ".", apiURL := "", apiURLs := [], apiKey := "",
    model := "m", maxFileSize := 1000000, requestTimeout := 30,
    maxConcurrency := 3, reportFile := "" }

def cfgMulti : Config :=
  { projectPath := ".", apiURL := "http://legacy", apiURLs := ["http://a", "http://b"],
    apiKey := "", model := "m", maxFileSize := 1000000, requestTimeout := 30,
    maxConcurrency := 3, reportFile := "" }

def svc2 : Service := { config := cfgEx, endpoints := ["http://a", "http://b"], rrCounter := 0 }

def attemptW : String → Except AttemptError String :=
  fun ep => if ep = "http://b" then .ok "good" else .error .authFailed

def failAll : String → Except AttemptError String :=
  fun _ => .error .authFailed

def files1 : List FileInfo := [{ path := "main.go", size := 1, content := "x" }]

def reviewErrO : String → Except ReviewError String :=
  fun _ => .error (.sizeExceeded 0)

def reviewEmptyO : String → Except ReviewError String :=
  fun _ => .ok ""

/-- The 20-rune string with exactly one character outside the printable set:
its non-printable fraction is exactly 5 percent. -/
def boundaryStr : String := String.mk (Char.ofNat 1 :: List.replicate 19 'a')

/-! ## Helper lemmas -/

/-- Unfolding the failover loop when the current attempt succeeds. -/
theorem tryFrom_succ_ok (attempt : String → Except AttemptError String)
    (eps : List String) (start i r : Nat) (lastErr : Option ReviewError)
    (txt : String) (h : attempt (rotEp eps start i) = Except.ok txt) :
    tryFrom attempt eps start i (r + 1) lastErr = (Except.ok txt, [rotEp eps start i]) := by
  simp [tryFrom, h]

/-- Unfolding the failover loop when the current attempt fails. -/
theorem tryFrom_succ_error (attempt : String → Except AttemptError String)
    (eps : List String) (start i r : Nat) (lastErr : Option ReviewError)
    (e : AttemptError) (h : attempt (rotEp eps start i) = Except.error e) :
    tryFrom attempt eps start i (r + 1) lastErr =
      ((tryFrom attempt eps start (i + 1) r
          (some (ReviewError.endpointFailed (rotEp eps start i) e))).1,
        rotEp eps start i ::
          (tryFrom attempt eps start (i + 1) r
            (some (ReviewError.endpointFailed (rotEp eps start i) e))).2) := by
  simp [tryFrom, h]

/-- Prepending the image of 0 to a shifted range-map gives the next range-map. -/
theorem map_range_succ_shift {α : Type} (g : Nat → α) (n : Nat) :
    g 0 :: (List.range n).map (fun j => g (j + 1)) = (List.range (n + 1)).map g := by
  rw [List.range_succ_eq_map]
  simp [List.map_map, Function.comp_def]

/-- The failover loop makes at most as many attempts as its iteration budget. -/
theorem tryFrom_length_le (attempt : String → Except AttemptError String)
    (eps : List String) (start : Nat) :
    ∀ (r i : Nat) (lastErr : Option ReviewError),
      (tryFrom attempt eps start i r lastErr).2.length ≤ r := by
  intro r
  induction r with
  | zero =>
    intro i lastErr
    cases lastErr <;> simp [tryFrom]
  | succ r ih =>
    intro i lastErr
    cases h : attempt (rotEp eps start i) with
    | ok v => simp [tryFrom_succ_ok attempt eps start i r lastErr v h]
    | error e =>
      rw [tryFrom_succ_error attempt eps start i r lastErr e h]
      simpa using Nat.succ_le_succ (ih (i + 1) _)

/-- Once lastErr is set, the loop can no longer report noEndpointsConfigured. -/
theorem tryFrom_some_ne_noEndpoints (attempt : String → Except AttemptError String)
    (eps : List String) (start : Nat) :
    ∀ (r i : Nat) (e0 : ReviewError),
      (tryFrom attempt eps start i r (some e0)).1 ≠
        Except.error ReviewError.noEndpointsConfigured := by
  intro r
  induction r with
  | zero => intro i e0; simp [tryFrom]
  | succ r ih =>
    intro i e0
    cases h : attempt (rotEp eps start i) with
    | ok v => simp [tryFrom_succ_ok attempt eps start i r _ v h]
    | error e =>
      rw [tryFrom_succ_error attempt eps start i r _ e h]
      exact ih (i + 1) _

/-- With at least one endpoint to try, the loop never reports
noEndpointsConfigured. -/
theorem tryFrom_pos_ne_noEndpoints (attempt : String → Except AttemptError String)
    (eps : List String) (start : Nat) (r i : Nat) (lastErr : Option ReviewError)
    (hr : 0 < r) :
    (tryFrom attempt eps start i r lastErr).1 ≠
      Except.error ReviewError.noEndpointsConfigured := by
  cases r with
  | zero => exact absurd hr (by simp)
  | succ r =>
    cases h : attempt (rotEp eps start i) with
    | ok v => simp [tryFrom_succ_ok attempt eps start i r _ v h]
    | error e =>
      rw [tryFrom_succ_error attempt eps start i r _ e h]
      exact tryFrom_some_ne_noEndpoints attempt eps start r (i + 1) _

/-- When every endpoint in the window fails, the loop returns the terminal
wrapper around the last endpoint's failure and attempts every endpoint in
rotation order. -/
theorem tryFrom_allFail (attempt : String → Except AttemptError String)
    (eps : List String) (start : Nat) (f : Nat → AttemptError) :
    ∀ (m i : Nat) (lastErr : Option ReviewError),
      (∀ j, j ≤ m → attempt (rotEp eps start (i + j)) = Except.error (f (i + j))) →
      tryFrom attempt eps start i (m + 1) lastErr =
        (Except.error (ReviewError.allEndpointsFailed eps.length
            (ReviewError.endpointFailed (rotEp eps start (i + m)) (f (i + m)))),
         (List.range (m + 1)).map (fun j => rotEp eps start (i + j))) := by
  intro m
  induction m with
  | zero =>
    intro i lastErr h
    have h0 := h 0 (Nat.le_refl 0)
    simp only [Nat.add_zero] at h0
    rw [tryFrom_succ_error attempt eps start i 0 lastErr (f i) h0]
    simp [tryFrom, List.range_succ]
  | succ m ih =>
    intro i lastErr h
    have h0 := h 0 (Nat.zero_le _)
    simp only [Nat.add_zero] at h0
    have hrest := ih (i + 1) (some (.endpointFailed (rotEp eps start i) (f i)))
      (by intro j hj
          have hx := h (j + 1) (Nat.succ_le_succ hj)
          have hidx : i + 1 + j = i + (j + 1) := by omega
          rw [hidx]
          exact hx)
    rw [tryFrom_succ_error attempt eps start i (m + 1) lastErr (f i) h0, hrest]
    simp only [Prod.mk.injEq]
    refine ⟨?_, ?_⟩
    · have hidx : i + 1 + m = i + (m + 1) := by omega
      rw [hidx]
    · have hg : ∀ j ∈ List.range (m + 1),
          rotEp eps start (i + 1 + j) = rotEp eps start (i + (j + 1)) := by
        intro j _
        have : i + 1 + j = i + (j + 1) := by omega
        rw [this]
      rw [List.map_congr_left hg]
      exact map_range_succ_shift (fun j => rotEp eps start (i + j)) (m + 1)

/-- When the first m endpoints of the window fail and the next succeeds, the
loop short-circuits with the successful text after exactly m + 1 attempts,
in rotation order. -/
theorem tryFrom_firstSuccess (attempt : String → Except AttemptError String)
    (eps : List String) (start : Nat) (txt : String) :
    ∀ (m r i : Nat) (lastErr : Option ReviewError), m < r →
      (∀ j, j < m → ∃ e, attempt (rotEp eps start (i + j)) = Except.error e) →
      attempt (rotEp eps start (i + m)) = Except.ok txt →
      tryFrom attempt eps start i r lastErr =
        (Except.ok txt, (List.range (m + 1)).map (fun j => rotEp eps start (i + j))) := by
  intro m
  induction m with
  | zero =>
    intro r i lastErr hr _ hsucc
    cases r with
    | zero => exact absurd hr (by simp)
    | succ r =>
      simp only [Nat.add_zero] at hsucc
      rw [tryFrom_succ_ok attempt eps start i r lastErr txt hsucc]
      simp [List.range_succ]
  | succ m ih =>
    intro r i lastErr hr hfail hsucc
    cases r with
    | zero => exact absurd hr (by simp)
    | succ r =>
      obtain ⟨e0, h0⟩ := hfail 0 (Nat.succ_pos m)
      simp only [Nat.add_zero] at h0
      have hrest := ih r (i + 1) (some (.endpointFailed (rotEp eps start i) e0))
        (Nat.lt_of_succ_lt_succ hr)
        (by intro j hj
            obtain ⟨e, he⟩ := hfail (j + 1) (Nat.succ_lt_succ hj)
            refine ⟨e, ?_⟩
            have hidx : i + 1 + j = i + (j + 1) := by omega
            rw [hidx]
            exact he)
        (by have hidx : i + 1 + m = i + (m + 1) := by omega
            rw [hidx]
            exact hsucc)
      rw [tryFrom_succ_error attempt eps start i r lastErr e0 h0, hrest]
      simp only [Prod.mk.injEq, true_and]
      have hg : ∀ j ∈ List.range (m + 1),
          rotEp eps start (i + 1 + j) = rotEp eps start (i + (j + 1)) := by
        intro j _
        have : i + 1 + j = i + (j + 1) := by omega
        rw [this]
      rw [List.map_congr_left hg]
      exact map_range_succ_shift (fun j => rotEp eps start (i + j)) (m + 1)

/-- For a unit passing the size check and content validation, ReviewCode is
the dispatch phase. -/
theorem ReviewCode_valid (s : Service) (attempt : String → Except AttemptError String)
    (code : String) (hsize : ¬ s.config.maxFileSize < code.utf8ByteSize)
    (hvalid : validateContent code = Except.ok ()) :
    ReviewCode s attempt code = reviewDispatch s attempt := by
  unfold ReviewCode
  rw [if_neg hsize, hvalid]

/-- The dispatch phase over a non-empty endpoint list runs the loop over the
service's own endpoints. -/
theorem reviewDispatch_nonempty (s : Service)
    (attempt : String → Except AttemptError String)
    (h : s.endpoints.length ≠ 0) :
    reviewDispatch s attempt =
      ((tryFrom attempt s.endpoints (startIndexOf s) 0 s.endpoints.length none).1,
       { s with rrCounter := (nextStartIndex s.rrCounter s.endpoints.length).2 },
       (tryFrom attempt s.endpoints (startIndexOf s) 0 s.endpoints.length none).2) := by
  unfold reviewDispatch startIndexOf
  rw [if_neg h]

/-- The dispatch phase over an empty endpoint list falls back to the single
legacy APIURL. -/
theorem reviewDispatch_empty (s : Service)
    (attempt : String → Except AttemptError String)
    (h : s.endpoints.length = 0) :
    reviewDispatch s attempt =
      ((tryFrom attempt [s.config.apiURL] (nextStartIndex s.rrCounter 1).1 0 1 none).1,
       { s with rrCounter := (nextStartIndex s.rrCounter 1).2 },
       (tryFrom attempt [s.config.apiURL] (nextStartIndex s.rrCounter 1).1 0 1 none).2) := by
  unfold reviewDispatch
  rw [if_pos h]
  rfl

/-- The counter update of nextStartIndex is one uint64 increment. -/
theorem nextStartIndex_snd (c n : Nat) :
    (nextStartIndex c n).2 = (c + 1) % UINT64 := rfl

/-- The uint64 decrement of the incremented counter recovers the old counter
mod 2^64. -/
theorem incr_decr_mod (c : Nat) :
    ((c + 1) % UINT64 + (UINT64 - 1)) % UINT64 = c % UINT64 := by
  show ((c + 1) % 18446744073709551616 + (18446744073709551616 - 1)) %
      18446744073709551616 = c % 18446744073709551616
  omega

/-- The start index returned by nextStartIndex is the pre-increment counter
value, reduced mod 2^64 and then mod the pool size. -/
theorem nextStartIndex_fst (c n : Nat) :
    (nextStartIndex c n).1 = c % UINT64 % n := by
  unfold nextStartIndex
  simp only []
  rw [incr_decr_mod]

/-- The start index is always within the pool. -/
theorem nextStartIndex_fst_lt (c n : Nat) (hn : 0 < n) :
    (nextStartIndex c n).1 < n := by
  rw [nextStartIndex_fst]
  exact Nat.mod_lt _ hn

/-- After k sequential calls the counter holds k mod 2^64. -/
theorem rrCounterAfter_eq (n k : Nat) : rrCounterAfter n k = k % UINT64 := by
  induction k with
  | zero => simp [rrCounterAfter]
  | succ k ih =>
    rw [rrCounterAfter, ih, nextStartIndex_snd]
    show (k % 18446744073709551616 + 1) % 18446744073709551616 =
        (k + 1) % 18446744073709551616
    omega

/-- The k-th sequential call returns k mod 2^64 mod n. -/
theorem nthStart_eq (n k : Nat) : nthStart n k = k % UINT64 % n := by
  rw [nthStart, rrCounterAfter_eq, nextStartIndex_fst, Nat.mod_mod_of_dvd _ dvd_rfl]

/-- processFiles is: every file attempted in order, one report block per
non-empty success, one error entry per failure. -/
theorem processFiles_eq (review : String → Except ReviewError String)
    (files : List FileInfo) :
    processFiles review files =
      (files.map (fun f => f.path),
       files.filterMap (blockOf review),
       files.filterMap (errOf review)) := by
  induction files with
  | nil => rfl
  | cons f rest ih =>
    cases h : review f.content with
    | error e => simp [processFiles, h, ih, blockOf, errOf]
    | ok r =>
      by_cases hr : r = ""
      · simp [processFiles, h, hr, ih, blockOf, errOf]
      · simp [processFiles, h, hr, ih, blockOf, errOf]

/-- processFilesWithConcurrency, with the task fold characterized. -/
theorem processFilesWithConcurrency_eq (review : String → Except ReviewError String)
    (files : List FileInfo) :
    processFilesWithConcurrency review files =
      { attempted := files.map (fun f => f.path),
        blocks := files.filterMap (blockOf review),
        errors := files.filterMap (errOf review),
        finalError :=
          if 0 < (files.filterMap (errOf review)).length
          then some (files.filterMap (errOf review)).length else none } := by
  unfold processFilesWithConcurrency
  rw [processFiles_eq]

/-- When every unit reviews successfully, the run completes with nil error. -/
theorem runReview_allOk (review : String → Except ReviewError String)
    (files : List FileInfo)
    (h : ∀ f ∈ files, ∃ r, review f.content = Except.ok r) :
    runReview review files = none := by
  have herr : files.filterMap (errOf review) = [] := by
    rw [List.filterMap_eq_nil_iff]
    intro f hf
    obtain ⟨r, hr⟩ := h f hf
    simp [errOf, hr]
  unfold runReview
  split
  · rfl
  · rw [processFilesWithConcurrency_eq]
    simp [herr]

/-- ReviewCode makes at most one attempt per endpoint of a non-empty pool. -/
theorem reviewCode_attempts_le (s : Service) (a : String → Except AttemptError String)
    (c : String) (h : s.endpoints.length ≠ 0) :
    (ReviewCode s a c).2.2.length ≤ s.endpoints.length := by
  unfold ReviewCode
  split
  · simp
  · split
    · simp
    · rw [reviewDispatch_nonempty s a h]
      exact tryFrom_length_le a s.endpoints (startIndexOf s) s.endpoints.length 0 none

/-- ReviewCode never reports noEndpointsConfigured: the empty-pool fallback
makes the loop run at least once, which sets lastErr or succeeds. -/
theorem reviewCode_ne_noEndpoints (s : Service) (a : String → Except AttemptError String)
    (c : String) :
    (ReviewCode s a c).1 ≠ Except.error ReviewError.noEndpointsConfigured := by
  unfold ReviewCode
  split
  · simp
  · split
    · simp
    · by_cases h : s.endpoints.length = 0
      · rw [reviewDispatch_empty s a h]
        exact tryFrom_pos_ne_noEndpoints a [s.config.apiURL]
          (nextStartIndex s.rrCounter 1).1 1 0 none (by omega)
      · rw [reviewDispatch_nonempty s a h]
        exact tryFrom_pos_ne_noEndpoints a s.endpoints
          (startIndexOf s) s.endpoints.length 0 none (by omega)

/-! ## Claim theorems -/

/-- C1 (counterexample): with a pool of K = 2 endpoints that both fail, the
dispatcher returns the terminal Failure and attempts both endpoints, but the
embedded per-endpoint reason list has exactly 1 entry, not K = 2: lastErr is
overwritten on every iteration, so only the last endpoint's reason survives. -/
theorem c1_counterexample :
    svc2.endpoints.length = 2 ∧
    (ReviewCode svc2 failAll "x").1 =
      Except.error (ReviewError.allEndpointsFailed 2
        (ReviewError.endpointFailed "http://b" AttemptError.authFailed)) ∧
    (ReviewCode svc2 failAll "x").2.2.length = 2 ∧
    (outcomeEndpointReasons (ReviewCode svc2 failAll "x").1).length = 1 := by
  decide

/-- C1 (amended): for every review unit passing validation and every pool of
K endpoints (K ≥ 1) on which the per-endpoint attempt fails everywhere, the
dispatcher returns a Failure stating all K endpoints failed whose embedded
reason list has exactly one entry — the reason of the last endpoint
attempted, endpoint (start+K-1) mod K — while all K endpoints are attempted,
one each, in the order attempted (starting index through wraparound). -/
theorem c1_allFail_lastReasonOnly (s : Service)
    (attempt : String → Except AttemptError String) (code : String) (K : Nat)
    (f : Nat → AttemptError)
    (hK : s.endpoints.length = K) (hKpos : 0 < K)
    (hsize : ¬ s.config.maxFileSize < code.utf8ByteSize)
    (hvalid : validateContent code = Except.ok ())
    (hfail : ∀ i, i < K →
      attempt (rotEp s.endpoints (startIndexOf s) i) = Except.error (f i)) :
    (ReviewCode s attempt code).1 =
      Except.error (ReviewError.allEndpointsFailed K
        (ReviewError.endpointFailed (rotEp s.endpoints (startIndexOf s) (K - 1))
          (f (K - 1)))) ∧
    outcomeEndpointReasons (ReviewCode s attempt code).1 =
      [(rotEp s.endpoints (startIndexOf s) (K - 1), f (K - 1))] ∧
    (ReviewCode s attempt code).2.2 =
      (List.range K).map (fun j => rotEp s.endpoints (startIndexOf s) j) := by
  subst hK
  rw [ReviewCode_valid s attempt code hsize hvalid,
    reviewDispatch_nonempty s attempt (by omega)]
  obtain ⟨m, hm⟩ : ∃ m, s.endpoints.length = m + 1 :=
    ⟨s.endpoints.length - 1, by omega⟩
  have hloop := tryFrom_allFail attempt s.endpoints (startIndexOf s) f m 0 none
    (by intro j hj
        have := hfail j (by omega)
        simpa [Nat.zero_add] using this)
  rw [show s.endpoints.length = m + 1 from hm] at hloop ⊢
  rw [hloop]
  have hm1 : m + 1 - 1 = m := by omega
  refine ⟨?_, ?_, ?_⟩
  · simp [hm1, Nat.zero_add]
  · simp [outcomeEndpointReasons, embeddedEndpointReasons, hm1, Nat.zero_add]
  · simp only []
    apply List.map_congr_left
    intro j _
    rw [Nat.zero_add]

/-- C1 (witness): the amended theorem at the concrete two-endpoint service
with both endpoints failing with an authentication error. -/
theorem c1_witness :
    (ReviewCode svc2 failAll "x").1 =
      Except.error (ReviewError.allEndpointsFailed 2
        (ReviewError.endpointFailed (rotEp svc2.endpoints (startIndexOf svc2) 1)
          AttemptError.authFailed)) :=
  (c1_allFail_lastReasonOnly svc2 failAll "x" 2 (fun _ => AttemptError.authFailed)
    rfl (by decide) (by decide) (by decide) (fun _ _ => rfl)).1

/-- C2 (confirmed): for a pool of K endpoints where the attempts at rotation
offsets 0 .. K-2 fail and the attempt at offset K-1 succeeds, ReviewCode
returns Success with that endpoint's text, the attempt function is invoked
exactly K times (one per endpoint, in rotation order, so no endpoint is
tried after the first success), and every call makes at most K attempts. -/
theorem c2_success_after_failures (s : Service)
    (attempt : String → Except AttemptError String) (code txt : String) (K : Nat)
    (hK : s.endpoints.length = K) (hKpos : 0 < K)
    (hsize : ¬ s.config.maxFileSize < code.utf8ByteSize)
    (hvalid : validateContent code = Except.ok ())
    (hfail : ∀ i, i < K - 1 →
      ∃ e, attempt (rotEp s.endpoints (startIndexOf s) i) = Except.error e)
    (hsucc : attempt (rotEp s.endpoints (startIndexOf s) (K - 1)) = Except.ok txt) :
    (ReviewCode s attempt code).1 = Except.ok txt ∧
    (ReviewCode s attempt code).2.2 =
      (List.range K).map (fun j => rotEp s.endpoints (startIndexOf s) j) ∧
    (ReviewCode s attempt code).2.2.length = K ∧
    ∀ (a : String → Except AttemptError String) (c : String),
      (ReviewCode s a c).2.2.length ≤ K := by
  subst hK
  have hloop := tryFrom_firstSuccess attempt s.endpoints (startIndexOf s) txt
    (s.endpoints.length - 1) s.endpoints.length 0 none (by omega)
    (by intro j hj
        obtain ⟨e, he⟩ := hfail j hj
        exact ⟨e, by simpa [Nat.zero_add] using he⟩)
    (by simpa [Nat.zero_add] using hsucc)
  rw [ReviewCode_valid s attempt code hsize hvalid,
    reviewDispatch_nonempty s attempt (by omega)]
  rw [hloop]
  have hm1 : s.endpoints.length - 1 + 1 = s.endpoints.length := by omega
  have hlist : (List.range (s.endpoints.length - 1 + 1)).map
        (fun j => rotEp s.endpoints (startIndexOf s) (0 + j)) =
      (List.range s.endpoints.length).map
        (fun j => rotEp s.endpoints (startIndexOf s) j) := by
    rw [hm1]
    apply List.map_congr_left
    intro j _
    rw [Nat.zero_add]
  refine ⟨rfl, ?_, ?_, ?_⟩
  · exact hlist
  · rw [hlist]
    simp
  · intro a c
    exact reviewCode_attempts_le s a c (by omega)

/-- C2 (witness): the theorem at the concrete two-endpoint service where the
first endpoint fails and the second succeeds with the text "good". -/
theorem c2_witness : (ReviewCode svc2 attemptW "x").1 = Except.ok "good" :=
  (c2_success_after_failures svc2 attemptW "x" "good" 2 rfl (by decide)
    (by decide) (by decide)
    (by intro i hi
        have : i = 0 := by omega
        subst this
        exact ⟨AttemptError.authFailed, by decide⟩)
    (by decide)).1

/-- C3 (counterexample): with an empty effective endpoint list, ReviewCode
does not return Failure(no endpoints configured) and does invoke the remote
attempt function — it attempts the (blank) legacy APIURL once. -/
theorem c3_counterexample :
    EffectiveAPIURLs cfg0 = [] ∧
    (NewService cfg0).endpoints = [] ∧
    (ReviewCode (NewService cfg0) failAll "x").2.2.length = 1 ∧
    (ReviewCode (NewService cfg0) failAll "x").1 ≠
      Except.error ReviewError.noEndpointsConfigured := by
  decide

/-- C3 (amended): for every validated unit, if the pool's effective endpoint
list is empty then ReviewCode falls back to the one-element list holding the
legacy APIURL and invokes the remote attempt function exactly once, against
that URL; the Failure(no endpoints configured) branch is unreachable — no
call of ReviewCode ever returns it. -/
theorem c3_emptyPool_fallback (cfg : Config)
    (attempt : String → Except AttemptError String) (code : String)
    (hempty : EffectiveAPIURLs cfg = [])
    (hsize : ¬ cfg.maxFileSize < code.utf8ByteSize)
    (hvalid : validateContent code = Except.ok ()) :
    (ReviewCode (NewService cfg) attempt code).2.2 = [cfg.apiURL] ∧
    ∀ (s : Service) (a : String → Except AttemptError String) (c : String),
      (ReviewCode s a c).1 ≠ Except.error ReviewError.noEndpointsConfigured := by
  refine ⟨?_, reviewCode_ne_noEndpoints⟩
  have hlen : (NewService cfg).endpoints.length = 0 := by
    simp [NewService, hempty]
  rw [ReviewCode_valid (NewService cfg) attempt code hsize hvalid,
    reviewDispatch_empty (NewService cfg) attempt hlen]
  have hrot : rotEp [(NewService cfg).config.apiURL]
      (nextStartIndex (NewService cfg).rrCounter 1).1 0 = cfg.apiURL := by
    simp [rotEp, NewService, Nat.mod_one]
  cases h : attempt (rotEp [(NewService cfg).config.apiURL]
      (nextStartIndex (NewService cfg).rrCounter 1).1 0) with
  | ok v =>
    rw [tryFrom_succ_ok attempt [(NewService cfg).config.apiURL]
      (nextStartIndex (NewService cfg).rrCounter 1).1 0 0 none v h]
    simp [hrot]
  | error e =>
    rw [tryFrom_succ_error attempt [(NewService cfg).config.apiURL]
      (nextStartIndex (NewService cfg).rrCounter 1).1 0 0 none e h]
    simp [tryFrom, hrot]

/-- C3 (witness): the amended theorem at the concrete configuration with no
endpoints configured: the single attempted endpoint is the blank APIURL. -/
theorem c3_witness :
    (ReviewCode (NewService cfg0) failAll "x").2.2 = [cfg0.apiURL] :=
  (c3_emptyPool_fallback cfg0 failAll "x" (by decide) (by decide) (by decide)).1

/-- C4 (counterexample): a 20-character string with exactly one character
outside the printable set has a non-printable fraction of exactly 5 percent,
yet validateContent accepts it — the code rejects only when the printable
fraction is strictly below 0.95, so the claimed "≥ 5 percent is rejected"
fails at the boundary. -/
theorem c4_counterexample :
    validateContent boundaryStr = Except.ok () ∧
    20 * boundaryStr.data.countP (fun c => !(isPrintableRune c)) =
      boundaryStr.data.length := by
  decide

/-- C4 (amended): validateContent applies its rules in order, short-circuiting
on the first violation: empty-or-whitespace-only content is rejected as
empty; otherwise content whose byte length exceeds the fixed 100000-byte
threshold is rejected as too large; otherwise content containing a null byte
is rejected with the combined binary-or-non-text reason; otherwise content
whose fraction of characters outside printable ASCII (plus tab, newline,
carriage return) is strictly greater than 5 percent (printable fraction
strictly below 95 percent) is rejected with that same reason; all other
content is accepted. -/
theorem c4_validator_rules (code : String) :
    validateContent code =
      (if goTrimSpace code.data = [] then Except.error VError.emptyContent
       else if 100000 < code.utf8ByteSize then
         Except.error (VError.tooLarge code.utf8ByteSize)
       else if code.data.contains (Char.ofNat 0) then
         Except.error VError.binaryOrNonText
       else if 0 < code.data.length ∧
           20 * code.data.countP isPrintableRune < 19 * code.data.length then
         Except.error VError.binaryOrNonText
       else Except.ok ()) := by
  unfold validateContent isTextContent
  by_cases h1 : goTrimSpace code.data = []
  · simp [h1]
  · by_cases h2 : 100000 < code.utf8ByteSize
    · simp [h1, h2]
    · by_cases h3 : code.data.contains (Char.ofNat 0)
      · have hmem : Char.ofNat 0 ∈ code.data := by simpa using h3
        simp [h1, h2, hmem]
      · have hnm : Char.ofNat 0 ∉ code.data := by simpa using h3
        by_cases h4 : 0 < code.data.length ∧
            20 * code.data.countP isPrintableRune < 19 * code.data.length
        · have h4s := h4
          simp only [String.length] at h4s
          simp [h1, h2, hnm, h4s]
        · have h4s := h4
          simp only [String.length] at h4s
          simp [h1, h2, hnm, h4s]

/-- C5 (confirmed): the start-index computation increments the shared
counter exactly once per dispatcher call (one uint64 increment, also visible
on the service ReviewCode returns) and yields (counter - 1) mod N for the
post-increment counter value; the result is always in [0, N); and over
sequential calls on a fresh service the k-th call returns k mod N, cycling
through 0 .. N-1 in order. -/
theorem c5_roundRobin :
    (∀ c n, (nextStartIndex c n).2 = (c + 1) % UINT64) ∧
    (∀ c n, (nextStartIndex c n).1 =
      ((nextStartIndex c n).2 + (UINT64 - 1)) % UINT64 % n) ∧
    (∀ c n, 0 < n → (nextStartIndex c n).1 < n) ∧
    (∀ n, 0 < n → ∀ k, k < UINT64 → nthStart n k = k % n) ∧
    (∀ (s : Service) (attempt : String → Except AttemptError String) (code : String),
      ¬ s.config.maxFileSize < code.utf8ByteSize →
      validateContent code = Except.ok () →
      ((ReviewCode s attempt code).2.1).rrCounter = (s.rrCounter + 1) % UINT64) := by
  refine ⟨fun c n => rfl, fun c n => rfl, nextStartIndex_fst_lt, ?_, ?_⟩
  · intro n _ k hk
    rw [nthStart_eq, Nat.mod_eq_of_lt hk]
  · intro s attempt code hsize hvalid
    rw [ReviewCode_valid s attempt code hsize hvalid]
    by_cases h : s.endpoints.length = 0
    · rw [reviewDispatch_empty s attempt h]
      exact nextStartIndex_snd s.rrCounter 1
    · rw [reviewDispatch_nonempty s attempt h]
      exact nextStartIndex_snd s.rrCounter s.endpoints.length

/-- C5 (witness): the sixth sequential call on a 3-endpoint pool returns
5 mod 3, and a start index at pool size 4 is below 4. -/
theorem c5_witness : nthStart 3 5 = 5 % 3 ∧ (nextStartIndex 10 4).1 < 4 :=
  ⟨c5_roundRobin.2.2.2.1 3 (by decide) 5 (by decide),
   c5_roundRobin.2.2.1 10 4 (by decide)⟩

/-- C6 (counterexample): HTTP status 503 — a 5xx status — is classified by
attemptRequest as the generic status failure, not as server unavailable:
only status 500 hits the server-unavailable case. -/
theorem c6_counterexample :
    attemptRequest "m" (HTTPResult.response 503 none) =
      Except.error (AttemptError.statusGeneric 503) ∧
    attemptRequest "m" (HTTPResult.response 503 none) ≠
      Except.error AttemptError.serverError := by
  decide

/-- C6 (amended): for every non-2xx HTTP status, attemptRequest returns a
Failure whose reason is determined by the status code: 400 maps to
malformed-request/unsupported-model, 401 to authentication required, 403 to
forbidden, 404 to model/endpoint not found, 429 to rate limited, 500 to
server unavailable, and any other status — including 5xx statuses other
than 500 — to a generic status failure; no non-2xx status yields Success. -/
theorem c6_statusMapping (model : String) (body : Option ReviewResponse)
    (status : Nat) (h : status < 200 ∨ 300 ≤ status) :
    (∀ r, attemptRequest model (HTTPResult.response status body) ≠ Except.ok r) ∧
    attemptRequest model (HTTPResult.response status body) =
      Except.error (classifyStatus model status) ∧
    classifyStatus model 400 = AttemptError.badRequest model ∧
    classifyStatus model 401 = AttemptError.authFailed ∧
    classifyStatus model 403 = AttemptError.forbidden ∧
    classifyStatus model 404 = AttemptError.modelNotFound model ∧
    classifyStatus model 429 = AttemptError.rateLimited ∧
    classifyStatus model 500 = AttemptError.serverError ∧
    (status ∉ ([400, 401, 403, 404, 429, 500] : List Nat) →
      classifyStatus model status = AttemptError.statusGeneric status) := by
  have hne : status ≠ 200 := by omega
  refine ⟨?_, ?_, rfl, rfl, rfl, rfl, rfl, rfl, ?_⟩
  · intro r
    simp [attemptRequest, hne]
  · simp [attemptRequest, hne]
  · intro hmem
    simp only [List.mem_cons, List.not_mem_nil, or_false, not_or] at hmem
    obtain ⟨m400, m401, m403, m404, m429, m500⟩ := hmem
    simp [classifyStatus, m400, m401, m403, m404, m429, m500]

/-- C6 (witness): the amended theorem at status 401 with an undecodable body. -/
theorem c6_witness :
    attemptRequest "m" (HTTPResult.response 401 none) =
      Except.error (classifyStatus "m" 401) :=
  (c6_statusMapping "m" none 401 (by omega)).2.1

/-- C7 (confirmed): EffectiveAPIURLs returns the configured multi-endpoint
list verbatim whenever it is non-empty; otherwise a single-element list
holding the legacy endpoint when that is non-blank; otherwise the empty
list. -/
theorem c7_effectiveAPIURLs (c : Config) :
    (c.apiURLs ≠ [] → EffectiveAPIURLs c = c.apiURLs) ∧
    (c.apiURLs = [] → goTrimSpace c.apiURL.data ≠ [] →
      EffectiveAPIURLs c = [c.apiURL]) ∧
    (c.apiURLs = [] → goTrimSpace c.apiURL.data = [] →
      EffectiveAPIURLs c = []) := by
  refine ⟨?_, ?_, ?_⟩
  · intro h
    unfold EffectiveAPIURLs
    rw [if_pos (List.length_pos.mpr h)]
  · intro h1 h2
    unfold EffectiveAPIURLs
    rw [if_neg (by simp [h1]), if_pos h2]
  · intro h1 h2
    unfold EffectiveAPIURLs
    rw [if_neg (by simp [h1]), if_neg (by simp [h2])]

/-- C7 (witness): the theorem at a configuration with two explicit
endpoints: they are returned verbatim. -/
theorem c7_witness : EffectiveAPIURLs cfgMulti = cfgMulti.apiURLs :=
  (c7_effectiveAPIURLs cfgMulti).1 (by decide)

/-- C8 (confirmed): in every execution of the admission gate of
processFilesWithConcurrency with ceiling limit ≥ 1 over n tasks, the number
of tasks that have acquired a slot and not yet released it never exceeds
limit; slots are conserved on every exit path (the deferred release is the
only way out of the gate, whatever the task outcome), so whenever no task is
pending or inside, all n tasks have completed and released. -/
theorem c8_gateBound (limit n : Nat) (_hlim : 1 ≤ limit) (s : SchedState)
    (h : SchedReachable limit n s) :
    s.inside ≤ limit ∧ s.pending + s.inside + s.done = n ∧
      (s.pending = 0 → s.inside = 0 → s.done = n) := by
  induction h with
  | refl => exact ⟨Nat.zero_le _, rfl, fun hp _ => hp.symm⟩
  | tail hab hstep ih =>
    obtain ⟨h1, h2, h3⟩ := ih
    cases hstep with
    | acquire p i d hi =>
      simp only [] at h1 h2 ⊢
      refine ⟨?_, ?_, ?_⟩ <;> omega
    | release p i d =>
      simp only [] at h1 h2 ⊢
      refine ⟨?_, ?_, ?_⟩ <;> omega

/-- C8 (witness): the theorem at the reachable state with one of two tasks
holding the single slot. -/
theorem c8_witness : (⟨1, 1, 0⟩ : SchedState).inside ≤ 1 :=
  (c8_gateBound 1 2 (by decide) ⟨1, 1, 0⟩
    (Relation.ReflTransGen.single (SchedStep.acquire 1 0 0 (by decide)))).1

/-- C9 (confirmed): run-level completion classification: zero units is a
successful no-op (nil error); all units succeeding is success (nil error);
any unit failing yields a non-nil error result, while every submitted unit
is still attempted and the failing unit's failure appears, individually
named, in the final error summary. -/
theorem c9_exitClassification (review : String → Except ReviewError String) :
    runReview review [] = none ∧
    (∀ files : List FileInfo,
      (∀ f ∈ files, ∃ r, review f.content = Except.ok r) →
      runReview review files = none) ∧
    (∀ (files : List FileInfo) (f : FileInfo) (e : ReviewError), f ∈ files →
      review f.content = Except.error e →
      (∃ k, runReview review files = some k ∧ 0 < k) ∧
      (processFilesWithConcurrency review files).attempted =
        files.map (fun g => g.path) ∧
      (f.path, e) ∈ (processFilesWithConcurrency review files).errors) := by
  refine ⟨rfl, runReview_allOk review, ?_⟩
  intro files f e hf he
  have hmem : (f.path, e) ∈ files.filterMap (errOf review) :=
    List.mem_filterMap.mpr ⟨f, hf, by simp [errOf, he]⟩
  have hlen : 0 < (files.filterMap (errOf review)).length := by
    cases hnil : files.filterMap (errOf review) with
    | nil => rw [hnil] at hmem; simp at hmem
    | cons a l => simp
  have hne : files.length ≠ 0 := by
    intro h0
    rw [List.length_eq_zero] at h0
    subst h0
    simp at hf
  refine ⟨⟨(files.filterMap (errOf review)).length, ?_, hlen⟩, ?_, ?_⟩
  · unfold runReview
    rw [if_neg hne, processFilesWithConcurrency_eq]
    simp only [if_pos hlen]
  · rw [processFilesWithConcurrency_eq]
  · rw [processFilesWithConcurrency_eq]
    exact hmem

/-- C9 (witness): the theorem at a one-file list whose review fails: the
failure is recorded in the summary. -/
theorem c9_witness :
    ("main.go", ReviewError.sizeExceeded 0) ∈
      (processFilesWithConcurrency reviewErrO files1).errors :=
  ((c9_exitClassification reviewErrO).2.2 files1
    { path := "main.go", size := 1, content := "x" }
    (ReviewError.sizeExceeded 0) (by decide) rfl).2.2

/-- C10 (confirmed): a unit whose review succeeds with the empty string
leaves no trace: no report block and no error entry carries its path (for a
path all of whose units review to the empty success), and a run whose units
all succeed — empty reviews included — still completes with nil error. -/
theorem c10_emptyReviewNoTrace (review : String → Except ReviewError String) :
    (∀ (files : List FileInfo) (p : String),
      (∀ g ∈ files, g.path = p → review g.content = Except.ok "") →
      (∀ b ∈ (processFilesWithConcurrency review files).blocks, b.path ≠ p) ∧
      (∀ pe ∈ (processFilesWithConcurrency review files).errors, pe.1 ≠ p)) ∧
    (∀ files : List FileInfo,
      (∀ f ∈ files, ∃ r, review f.content = Except.ok r) →
      runReview review files = none) := by
  refine ⟨?_, runReview_allOk review⟩
  intro files p hp
  constructor
  · intro b hb hbp
    rw [processFilesWithConcurrency_eq] at hb
    simp only [] at hb
    obtain ⟨g, hg, hbg⟩ := List.mem_filterMap.mp hb
    cases hrev : review g.content with
    | error e => simp [blockOf, hrev] at hbg
    | ok r =>
      by_cases hr : r = ""
      · simp [blockOf, hrev, hr] at hbg
      · simp only [blockOf, hrev, if_neg hr, Option.some.injEq] at hbg
        have hgp : g.path = p := by
          rw [← hbg] at hbp
          exact hbp
        have hempty := hp g hg hgp
        rw [hrev] at hempty
        injection hempty with hre
        exact hr hre
  · intro pe hpe hpep
    rw [processFilesWithConcurrency_eq] at hpe
    simp only [] at hpe
    obtain ⟨g, hg, hpg⟩ := List.mem_filterMap.mp hpe
    cases hrev : review g.content with
    | ok r => simp [errOf, hrev] at hpg
    | error e =>
      simp only [errOf, hrev, Option.some.injEq] at hpg
      have hgp : g.path = p := by
        rw [← hpg] at hpep
        exact hpep
      have hempty := hp g hg hgp
      rw [hrev] at hempty
      simp at hempty

/-- C10 (witness): the theorem at a one-file list whose review succeeds with
the empty string: the run still completes with nil error. -/
theorem c10_witness : runReview reviewEmptyO files1 = none :=
  (c10_emptyReviewNoTrace reviewEmptyO).2 files1 (fun _ _ => ⟨"", rfl⟩)

end GoReview
